import Mathlib

/-!
Verification model of the document aggregation layer of the
Universal-Search repository.

The definitions below are a shallow embedding of the richest variant of
the document service (the third section of src/unnamed/part_002, the one
with the content cache, the retry-on-429/503 and the MIME filter; the
spec declares this variant the target behavior), together with the PDF
line-join heuristic of src/lib/utils/pdf-utils.ts and the spreadsheet
extractor extractTextFromSheet.

Remote interactions (the Google Drive metadata call, the per-branch
content call plus its format extractor, the token listing and refresh
endpoints) are modelled by explicit oracles: an oracle value describes
what the remote side answers on a given attempt.  Everything the
functions themselves compute (cache consultation and update, the access
token check, MIME dispatch, placeholder construction, the retry
recursion, the aggregation loop, the token refresh flow) is embedded
directly from the source.  The possibly nonterminating retry recursion
is made total with an explicit fuel parameter: a result of `none` means
the computation did not complete within the given fuel.
-/

namespace UniversalSearch

/-- CACHE_TTL from the source: 1000 * 60 * 30 milliseconds (30 minutes). -/
def CACHE_TTL : Nat := 1000 * 60 * 30

/-- RETRY_DELAY from the source: 1000 milliseconds. -/
def RETRY_DELAY : Nat := 1000

/-- An error thrown by a remote API call: optional numeric code and message,
mirroring the error objects inspected by the catch handler. -/
structure ApiError where
  code : Option Nat
  message : String
deriving DecidableEq, Repr

/-- The file metadata returned by the drive.files.get metadata call
(fields mimeType and name). -/
structure FileMeta where
  mimeType : String
  name : String
deriving DecidableEq, Repr

/-- One attempt of the remote side of fetchDocumentContent: the outcome of
the metadata call, and the outcome of the dispatched branch (its remote
call composed with its format extractor).  The body field is consulted
only when the metadata call succeeds with a supported MIME type.  The pdf
and binary branches of the source wrap their own work in an inner
try/catch that converts failures into placeholder content, so for those
branches a failure surfaces here as a `body` success whose string is the
inner placeholder. -/
structure Attempt where
  meta : Except ApiError FileMeta
  body : Except ApiError String

/-- SUPPORTED_MIME_TYPES of the richest variant, as the association list
from MIME type to document type tag. -/
def SUPPORTED_MIME_TYPES : List (String × String) :=
  [("application/vnd.google-apps.document", "googleDoc"),
   ("application/vnd.google-apps.spreadsheet", "googleSheet"),
   ("application/vnd.google-apps.presentation", "googleSlides"),
   ("application/pdf", "pdf"),
   ("text/plain", "text"),
   ("application/vnd.openxmlformats-officedocument.wordprocessingml.document", "binary"),
   ("application/vnd.openxmlformats-officedocument.spreadsheetml.sheet", "binary"),
   ("application/vnd.openxmlformats-officedocument.presentationml.presentation", "binary"),
   ("application/msword", "binary"),
   ("application/vnd.ms-excel", "binary"),
   ("application/vnd.ms-powerpoint", "binary")]

/-- The docType lookup SUPPORTED_MIME_TYPES[mimeType]. -/
def docTypeOf (mimeType : String) : Option String :=
  SUPPORTED_MIME_TYPES.lookup mimeType

/-- One entry of the in-process documentCache: content and timestamp. -/
structure CacheEntry where
  content : String
  timestamp : Nat
deriving DecidableEq, Repr

/-- The documentCache, modelled as an association list from document id to
entry; insertion conses, and lookup returns the most recent insertion,
matching Map.set and Map.get observationally. -/
abbrev Cache := List (String × CacheEntry)

/-- The cache consultation at the top of fetchDocumentContent: returns the
cached content when an entry exists whose age is strictly below CACHE_TTL. -/
def freshContent (cache : Cache) (documentId : String) (now : Nat) : Option String :=
  match cache.lookup documentId with
  | some entry => if now - entry.timestamp < CACHE_TTL then some entry.content else none
  | none => none

/-- The outcome of one call of fetchDocumentContent: a normal return with a
string, or an exception propagating to the caller. -/
inductive FetchResult where
  | ok (content : String)
  | thrown (message : String)
deriving DecidableEq, Repr

/-- A completed run of fetchDocumentContent: its outcome, the cache
afterwards, the number of remote calls issued, and the accumulated retry
delay in milliseconds. -/
structure FetchRun where
  result : FetchResult
  cache : Cache
  calls : Nat
  delay : Nat
deriving DecidableEq, Repr

/-- The blank test !accessToken?.trim() guarding fetchDocumentContent: true
exactly when trimming leaves the empty string, that is when every character
of the token is whitespace. -/
def isBlank (s : String) : Bool :=
  s.data.all Char.isWhitespace

/-- The retry test of the catch handler: error.code === 429 or 503. -/
def isRetryable (e : ApiError) : Bool :=
  e.code == some 429 || e.code == some 503

/-- The placeholder built by the outer catch handler for a non-retryable
error: [Error: message], with the fallback text used when the message is
empty (falsy). -/
def errorText (message : String) : String :=
  "[Error: " ++ (if message = "" then "Failed to fetch document content" else message) ++ "]"

/-- The placeholder for an ApiError value. -/
def errorPlaceholder (e : ApiError) : String := errorText e.message

/-- What one attempt of the try block produces before the fuel recursion is
resolved: either a request to retry (429/503 reached the catch handler), or
a final outcome together with an optional cache insertion and the number of
remote calls the attempt issued. -/
inductive StepResult where
  | retry (calls : Nat)
  | done (result : FetchResult) (insertion : Option String) (calls : Nat)
deriving Repr

/-- The body of the try block of fetchDocumentContent for one attempt:
metadata call, MIME dispatch, branch content, empty-content fallback,
cache write decision, and the catch handler distinguishing 429/503 from
other errors. -/
def processAttempt (att : Attempt) : StepResult :=
  match att.meta with
  | Except.error e =>
    if isRetryable e then StepResult.retry 1
    else StepResult.done (FetchResult.ok (errorPlaceholder e)) none 1
  | Except.ok m =>
    match docTypeOf m.mimeType with
    | none =>
      StepResult.done (FetchResult.ok ("[Unsupported file type: " ++ m.mimeType ++ "]")) none 1
    | some _ =>
      match att.body with
      | Except.error e =>
        if isRetryable e then StepResult.retry 2
        else StepResult.done (FetchResult.ok (errorPlaceholder e)) none 2
      | Except.ok content =>
        if content = "" then
          StepResult.done (FetchResult.ok ("[No content available in " ++ m.name ++ "]")) none 2
        else
          StepResult.done (FetchResult.ok content) (some content) 2

/-- fetchDocumentContent of the richest variant.  The oracle gives the
remote outcomes of successive attempts starting at index `a`; the source
function retries itself without an attempt cap, so the embedding carries a
fuel bound and answers `none` when the fuel is exhausted.  The steps in
order, as in the source: cache consultation, access token validation
(throwing on a blank token), one attempt of the try block, and on a
429/503 a fixed RETRY_DELAY wait followed by a full recursive restart with
the same arguments. -/
def fetchDocumentContent (oracle : Nat → Attempt) :
    Nat → Nat → String → String → Cache → Nat → Option FetchRun
  | _, 0, _, _, _, _ => none
  | a, fuel + 1, documentId, accessToken, cache, now =>
    match freshContent cache documentId now with
    | some c => some ⟨FetchResult.ok c, cache, 0, 0⟩
    | none =>
      if isBlank accessToken then
        some ⟨FetchResult.thrown "Invalid access token", cache, 0, 0⟩
      else
        match processAttempt (oracle a) with
        | StepResult.done r insertion calls =>
          some ⟨r,
            match insertion with
            | some c => (documentId, ⟨c, now⟩) :: cache
            | none => cache,
            calls, 0⟩
        | StepResult.retry calls =>
          (fetchDocumentContent oracle (a + 1) fuel documentId accessToken cache now).map
            (fun r => ⟨r.result, r.cache, r.calls + calls, r.delay + RETRY_DELAY⟩)

/-- Whether an attempt reaches the catch handler with a retryable 429/503
error. -/
def retryableAttempt (att : Attempt) : Bool :=
  match att.meta with
  | Except.error e => isRetryable e
  | Except.ok m =>
    match docTypeOf m.mimeType with
    | none => false
    | some _ =>
      match att.body with
      | Except.error e => isRetryable e
      | Except.ok _ => false

/-- An attempt that fails with a non-retryable error carrying the given
message: either the metadata call fails, or the branch of a supported MIME
type fails, in both cases with a code other than 429 and 503. -/
def nonRetryableFailure (att : Attempt) (msg : String) : Prop :=
  (∃ e, att.meta = Except.error e ∧ isRetryable e = false ∧ msg = e.message) ∨
  (∃ m e, att.meta = Except.ok m ∧ (docTypeOf m.mimeType).isSome ∧
    att.body = Except.error e ∧ isRetryable e = false ∧ msg = e.message)

/-! The aggregation layer: Document, RemoteFile, the credential record read
from the token store, the token refresh flow, the drive listing call, and
the per-file content loop.  The listing call and the refresh endpoint are
modelled by oracles; the event trace records the order of the refresh
call, the credential persistence, the listing call and the per-file
content fetches. -/

/-- The aggregation result record (interface Document). -/
structure Document where
  id : String
  name : String
  content : String
  url : String
  lastModified : String
deriving DecidableEq, Repr

/-- One file record of the drive listing response
(fields id, name, webViewLink, modifiedTime). -/
structure RemoteFile where
  id : String
  name : String
  webViewLink : String
  modifiedTime : String
deriving DecidableEq, Repr

/-- The credential row returned by db.token.findUnique: access token,
refresh token and expiry (milliseconds since epoch). -/
structure Credential where
  tokenId : String
  accessToken : String
  refreshToken : String
  expiresAt : Nat
deriving DecidableEq, Repr

/-- A well-formed refresh response body as consumed by the aggregators:
fields access_token and expires_in (seconds). -/
structure RefreshedToken where
  access_token : String
  expires_in : Nat
deriving DecidableEq, Repr

/-- Observable events of one aggregation call, in execution order:
the POST to the token endpoint, the db.token.update persisting the
refreshed credential, the drive listing call, and one fetchDocumentContent
invocation per listed file.  Events carrying an access token record the
token the call used. -/
inductive Event where
  | refreshCall
  | persistToken (accessToken : String) (expiresAt : Nat)
  | listingCall (accessToken : String)
  | fetchCall (fileId : String) (accessToken : String)
deriving DecidableEq, Repr

/-- The outcome of an aggregation call: a returned document list, or an
exception propagating to the route handler. -/
inductive AggResult where
  | ok (docs : List Document)
  | thrown (message : String)
deriving DecidableEq, Repr

/-- A completed aggregation call together with its event trace. -/
structure AggRun where
  result : AggResult
  events : List Event
deriving DecidableEq, Repr

/-- The per-file loop shared by searchDocuments and getAllDocuments: for
each listed file call fetchDocumentContent and push a Document built from
the file metadata and the fetched content; when the fetch throws, log and
skip the file.  The cache is threaded through the calls; `none` means some
fetch did not complete within its fuel. -/
def aggregateFiles (fileOracle : String → Nat → Attempt) (fuel : Nat)
    (files : List RemoteFile) (accessToken : String) (cache : Cache) (now : Nat) :
    Option (List Document × Cache × List Event) :=
  match files with
  | [] => some ([], cache, [])
  | file :: rest =>
    match fetchDocumentContent (fileOracle file.id) 0 fuel file.id accessToken cache now with
    | none => none
    | some run =>
      match aggregateFiles fileOracle fuel rest accessToken run.cache now with
      | none => none
      | some (docs, cacheOut, evs) =>
        match run.result with
        | FetchResult.ok c =>
          some (⟨file.id, file.name, c, file.webViewLink, file.modifiedTime⟩ :: docs,
            cacheOut, Event.fetchCall file.id accessToken :: evs)
        | FetchResult.thrown _ =>
          some (docs, cacheOut, Event.fetchCall file.id accessToken :: evs)

/-- The quote-stripping term.replace applied to each search term: removes
every single and double quote character. -/
def removeQuotes (s : String) : String :=
  String.mk (s.data.filter (fun c => !(c == Char.ofNat 39 || c == Char.ofNat 34)))

/-- Whitespace trimming on the character list (term.trim of the source),
written with dropWhile so that it evaluates inside the kernel. -/
def jsTrimChars (cs : List Char) : List Char :=
  ((cs.dropWhile Char.isWhitespace).reverse.dropWhile Char.isWhitespace).reverse

/-- query.split with a single space separator, on the character list:
every space ends the current chunk, and adjacent spaces contribute empty
chunks, as in JavaScript. -/
def splitOnSpace : List Char → List Char → List (List Char)
  | acc, [] => [acc.reverse]
  | acc, c :: rest =>
    if c = ' ' then acc.reverse :: splitOnSpace [] rest
    else splitOnSpace (c :: acc) rest

/-- The search term preparation of the richest searchDocuments: split the
query on spaces, trim each term, drop terms shorter than two characters,
then strip quotes. -/
def cleanTerms (query : String) : List String :=
  (((splitOnSpace [] query.data).map (fun cs => String.mk (jsTrimChars cs))).filter
    (fun t => 2 ≤ t.length)).map removeQuotes

/-- The listing call and per-file loop shared by both aggregators after
the access token is settled: a failed listing throws the given message;
a successful listing runs the loop and returns the documents. -/
def runListing (listingOutcome : Option (List RemoteFile)) (failMessage : String)
    (fileOracle : String → Nat → Attempt) (fuel : Nat) (accessToken : String)
    (cache : Cache) (now : Nat) (eventsBefore : List Event) : Option AggRun :=
  match listingOutcome with
  | none => some ⟨AggResult.thrown failMessage, eventsBefore ++ [Event.listingCall accessToken]⟩
  | some files =>
    match aggregateFiles fileOracle fuel files accessToken cache now with
    | none => none
    | some (docs, _, fetchEvents) =>
      some ⟨AggResult.ok docs, eventsBefore ++ Event.listingCall accessToken :: fetchEvents⟩

/-- searchDocuments of the richest variant.  Steps, as in the source:
read the credential (throwing when the account is not connected); when
new Date() > expiresAt, call the token endpoint (its outcome given by the
refresh oracle; a failure propagates), persist the refreshed credential,
and use the new access token; prepare the search terms, returning the
empty list when no usable term remains; issue the listing call (outcome
given by the listing oracle, a failure throwing the fixed message); then
fetch every listed file, skipping files whose fetch throws. -/
def searchDocuments (credential : Option Credential)
    (refreshOutcome : Except String RefreshedToken)
    (listingOutcome : Option (List RemoteFile))
    (fileOracle : String → Nat → Attempt) (fuel : Nat)
    (query : String) (cache : Cache) (now : Nat) : Option AggRun :=
  match credential with
  | none => some ⟨AggResult.thrown "Google account not connected", []⟩
  | some token =>
    if token.expiresAt < now then
      match refreshOutcome with
      | Except.error msg => some ⟨AggResult.thrown msg, [Event.refreshCall]⟩
      | Except.ok r =>
        if cleanTerms query = [] then
          some ⟨AggResult.ok [],
            [Event.refreshCall, Event.persistToken r.access_token (now + r.expires_in * 1000)]⟩
        else
          runListing listingOutcome "Failed to search documents" fileOracle fuel
            r.access_token cache now
            [Event.refreshCall, Event.persistToken r.access_token (now + r.expires_in * 1000)]
    else
      if cleanTerms query = [] then some ⟨AggResult.ok [], []⟩
      else
        runListing listingOutcome "Failed to search documents" fileOracle fuel
          token.accessToken cache now []

/-- getAllDocuments of the richest variant: same credential and refresh
flow, except that a refresh failure is caught and rethrown as the fixed
message, and the listing (with its empty query) always follows the
refresh step. -/
def getAllDocuments (credential : Option Credential)
    (refreshOutcome : Except String RefreshedToken)
    (listingOutcome : Option (List RemoteFile))
    (fileOracle : String → Nat → Attempt) (fuel : Nat)
    (cache : Cache) (now : Nat) : Option AggRun :=
  match credential with
  | none => some ⟨AggResult.thrown "Google account not connected", []⟩
  | some token =>
    if token.expiresAt < now then
      match refreshOutcome with
      | Except.error _ => some ⟨AggResult.thrown "Failed to refresh access token", [Event.refreshCall]⟩
      | Except.ok r =>
        runListing listingOutcome "Failed to fetch documents list" fileOracle fuel
          r.access_token cache now
          [Event.refreshCall, Event.persistToken r.access_token (now + r.expires_in * 1000)]
    else
      runListing listingOutcome "Failed to fetch documents list" fileOracle fuel
        token.accessToken cache now []

/-- The access token an aggregation call ends up using for its remote
calls: the stored one when the credential is not expired, the refreshed
one when it is (none when the refresh fails, since the call then throws
before any remote call). -/
def effectiveToken (cred : Credential) (refreshOutcome : Except String RefreshedToken)
    (now : Nat) : Option String :=
  if cred.expiresAt < now then
    match refreshOutcome with
    | Except.ok r => some r.access_token
    | Except.error _ => none
  else some cred.accessToken

/-! The token refresher, as the claims discuss it in isolation.  The
provider response is an oracle: the HTTP ok flag and the parsed JSON
body, whose access_token and expires_in fields may be absent.  The source
function posts the grant, throws on a non-2xx response, and returns the
parsed body without inspecting it. -/

/-- The parsed JSON body of a token endpoint response; either field may be
omitted by the provider. -/
structure RefreshBody where
  access_token : Option String
  expires_in : Option Nat
deriving DecidableEq, Repr

/-- A token endpoint response: the ok flag of the HTTP response and the
parsed body. -/
structure RefreshHttpResponse where
  ok : Bool
  body : RefreshBody
deriving DecidableEq, Repr

/-- refreshToken from the source: throws the fixed message when the
response is not ok, otherwise returns the parsed body as is.  The refresh
token argument is only forwarded to the provider (part of the oracle) and
is never validated locally. -/
def refreshToken (refreshTokenValue : String) (response : RefreshHttpResponse) :
    Except String RefreshBody :=
  if response.ok then Except.ok response.body else Except.error "Failed to refresh token"

/-! The PDF line-join heuristic parseText of src/lib/utils/pdf-utils.ts.
An item of the pdf.js text content either is a text run (it has a str
field and a transform whose fifth coordinate is its vertical position) or
is a marked-content item without str, which the loop skips without
updating lastY.  The JavaScript condition `lastY == item.transform[5] ||
!lastY` holds when lastY equals the vertical coordinate of the run, when
lastY is still undefined (first run), and also when lastY is the number 0,
which is falsy. -/

/-- One item of a pdf.js text content listing. -/
inductive PdfItem where
  | run (str : String) (y : Int)
  | marked
deriving DecidableEq, Repr

/-- The loop body of parseText: lastY starts undefined (none); a run is
pushed bare when the condition holds and with a leading newline otherwise,
and lastY becomes the vertical coordinate of the run. -/
def parseTextGo : Option Int → List PdfItem → List String
  | _, [] => []
  | lastY, PdfItem.marked :: rest => parseTextGo lastY rest
  | lastY, PdfItem.run s y :: rest =>
    (match lastY with
      | none => s
      | some ly => if ly = y ∨ ly = 0 then s else "\n" ++ s) :: parseTextGo (some y) rest

/-- parseText: fold the items and join the pieces. -/
def parseText (items : List PdfItem) : String :=
  String.join (parseTextGo none items)

/-- The vertical coordinate the loop carries after processing a list of
items starting from a given lastY: the y of the last text run, the start
value when there is no run. -/
def lastRunYFrom (lastY : Option Int) (items : List PdfItem) : Option Int :=
  items.foldl (fun acc it =>
    match it with
    | PdfItem.run _ y => some y
    | PdfItem.marked => acc) lastY

/-- The vertical coordinate the loop carries after processing a list of
items: the y of the last text run, none when there is no run. -/
def lastRunY (items : List PdfItem) : Option Int :=
  lastRunYFrom none items

/-! The spreadsheet extractor extractTextFromSheet: for every sheet, the
rows of its first data grid contribute their non-empty formatted cell
values joined with tabs, followed by a newline, rows and values being
skipped when absent or empty. -/

/-- A cell of a grid row (field formattedValue, possibly absent). -/
structure SheetCell where
  formattedValue : Option String
deriving DecidableEq, Repr

/-- A row of a data grid (field values, possibly absent). -/
structure SheetRow where
  values : Option (List SheetCell)
deriving DecidableEq, Repr

/-- A data grid of a sheet (field rowData, possibly absent). -/
structure GridData where
  rowData : Option (List SheetRow)
deriving DecidableEq, Repr

/-- A sheet of the spreadsheet response (field data, possibly absent). -/
structure Sheet where
  data : Option (List GridData)
deriving DecidableEq, Repr

/-- The row text computed inside the loop: map every cell to its formatted
value (empty when absent), drop the empty strings (filter(Boolean)), and
join with tabs. -/
def rowText (cells : List SheetCell) : String :=
  String.intercalate "\t"
    ((cells.map (fun c => c.formattedValue.getD "")).filter (fun s => s ≠ ""))

/-- extractTextFromSheet from the source: walk the sheets; for each sheet
take the rowData of data[0] when present; for each row with a values
field, append its row text plus a newline when the row text is non-empty. -/
def extractTextFromSheet (sheets : List Sheet) : String :=
  sheets.foldl (fun text sheet =>
    match sheet.data with
    | none => text
    | some grids =>
      match grids.head? with
      | none => text
      | some grid =>
        match grid.rowData with
        | none => text
        | some rows =>
          rows.foldl (fun t row =>
            match row.values with
            | none => t
            | some cells =>
              if rowText cells = "" then t else t ++ rowText cells ++ "\n") text) ""

/-- The non-empty row texts the extractor keeps, in order: for every sheet
the rows of its first grid, each row with a values field mapped to its row
text, empty row texts dropped. -/
def nonEmptyRowTexts (sheets : List Sheet) : List String :=
  sheets.flatMap (fun sheet =>
    (((sheet.data.getD []).head?.map (fun g => g.rowData.getD [])).getD []).filterMap
      (fun row =>
        match row.values with
        | none => none
        | some cells => if rowText cells = "" then none else some (rowText cells)))

/-- What the claim words describe for the spreadsheet extractor: walk the
rows and cells, join the formatted values of the cells of a row with a tab
character, and join the rows with a newline character. -/
def extractTextFromSheetSpec (sheets : List Sheet) : String :=
  String.intercalate "\n"
    (sheets.flatMap (fun sheet =>
      (((sheet.data.getD []).head?.map (fun g => g.rowData.getD [])).getD []).map
        (fun row =>
          String.intercalate "\t"
            ((row.values.getD []).map (fun c => c.formattedValue.getD "")))))

/-! Helper lemmas about single attempts. -/

theorem processAttempt_retry_of_retryable {att : Attempt} (h : retryableAttempt att = true) :
    ∃ k, processAttempt att = StepResult.retry k := by
  rcases att with ⟨meta, body⟩
  cases meta with
  | error e =>
    simp only [retryableAttempt] at h
    exact ⟨1, by simp [processAttempt, h]⟩
  | ok m =>
    simp only [retryableAttempt] at h
    cases hd : docTypeOf m.mimeType with
    | none => rw [hd] at h; exact absurd h (by simp)
    | some tag =>
      rw [hd] at h
      cases body with
      | error e => exact ⟨2, by simp_all [processAttempt]⟩
      | ok c => exact absurd h (by simp)

theorem processAttempt_done_of_not_retryable {att : Attempt} (h : retryableAttempt att = false) :
    ∃ c insertion k, processAttempt att = StepResult.done (FetchResult.ok c) insertion k := by
  rcases att with ⟨meta, body⟩
  cases meta with
  | error e =>
    simp only [retryableAttempt] at h
    exact ⟨errorPlaceholder e, none, 1, by simp [processAttempt, h]⟩
  | ok m =>
    cases hd : docTypeOf m.mimeType with
    | none =>
      exact ⟨"[Unsupported file type: " ++ m.mimeType ++ "]", none, 1,
        by simp [processAttempt, hd]⟩
    | some tag =>
      simp only [retryableAttempt, hd] at h
      cases body with
      | error e =>
        change isRetryable e = false at h
        exact ⟨errorPlaceholder e, none, 2, by simp [processAttempt, hd, h]⟩
      | ok c =>
        by_cases hc : c = ""
        · exact ⟨"[No content available in " ++ m.name ++ "]", none, 2,
            by simp [processAttempt, hd, hc]⟩
        · exact ⟨c, some c, 2, by simp [processAttempt, hd, hc]⟩

theorem processAttempt_done_ok {att : Attempt} {r : FetchResult} {insertion : Option String}
    {k : Nat} (h : processAttempt att = StepResult.done r insertion k) :
    ∃ c, r = FetchResult.ok c := by
  rcases att with ⟨meta, body⟩
  cases meta with
  | error e =>
    by_cases hr : isRetryable e <;> simp [processAttempt, hr] at h
    exact ⟨_, h.1.symm⟩
  | ok m =>
    cases hd : docTypeOf m.mimeType with
    | none => simp [processAttempt, hd] at h; exact ⟨_, h.1.symm⟩
    | some tag =>
      cases body with
      | error e =>
        by_cases hr : isRetryable e <;> simp [processAttempt, hd, hr] at h
        exact ⟨_, h.1.symm⟩
      | ok c =>
        by_cases hc : c = "" <;> simp [processAttempt, hd, hc] at h
        · exact ⟨_, h.1.symm⟩
        · exact ⟨_, h.1.symm⟩

theorem processAttempt_of_nonRetryableFailure {att : Attempt} {msg : String}
    (h : nonRetryableFailure att msg) :
    ∃ k, processAttempt att = StepResult.done (FetchResult.ok (errorText msg)) none k := by
  rcases h with ⟨e, hm, hr, hmsg⟩ | ⟨m, e, hm, hsupp, hb, hr, hmsg⟩
  · exact ⟨1, by simp [processAttempt, hm, hr, errorPlaceholder, hmsg]⟩
  · rcases Option.isSome_iff_exists.mp hsupp with ⟨tag, htag⟩
    exact ⟨2, by simp [processAttempt, hm, htag, hb, hr, errorPlaceholder, hmsg]⟩

theorem freshContent_of_lookup_none {cache : Cache} {documentId : String} {now : Nat}
    (h : cache.lookup documentId = none) : freshContent cache documentId now = none := by
  simp [freshContent, h]

/-! Step lemmas for the fueled fetchDocumentContent. -/

theorem fetch_succ_cache_hit {oracle : Nat → Attempt} {a fuel : Nat}
    {documentId accessToken : String} {cache : Cache} {now : Nat} {c : String}
    (h : freshContent cache documentId now = some c) :
    fetchDocumentContent oracle a (fuel + 1) documentId accessToken cache now =
      some ⟨FetchResult.ok c, cache, 0, 0⟩ := by
  simp [fetchDocumentContent, h]

theorem fetch_succ_blank {oracle : Nat → Attempt} {a fuel : Nat}
    {documentId accessToken : String} {cache : Cache} {now : Nat}
    (h1 : freshContent cache documentId now = none) (h2 : isBlank accessToken = true) :
    fetchDocumentContent oracle a (fuel + 1) documentId accessToken cache now =
      some ⟨FetchResult.thrown "Invalid access token", cache, 0, 0⟩ := by
  simp [fetchDocumentContent, h1, h2]

theorem fetch_succ_done {oracle : Nat → Attempt} {a fuel : Nat}
    {documentId accessToken : String} {cache : Cache} {now : Nat}
    {r : FetchResult} {insertion : Option String} {k : Nat}
    (h1 : freshContent cache documentId now = none) (h2 : isBlank accessToken = false)
    (h3 : processAttempt (oracle a) = StepResult.done r insertion k) :
    fetchDocumentContent oracle a (fuel + 1) documentId accessToken cache now =
      some ⟨r,
        match insertion with
        | some c => (documentId, ⟨c, now⟩) :: cache
        | none => cache,
        k, 0⟩ := by
  cases insertion with
  | some c => simp [fetchDocumentContent, h1, h2, h3]
  | none => simp [fetchDocumentContent, h1, h2, h3]

theorem fetch_succ_retry {oracle : Nat → Attempt} {a fuel : Nat}
    {documentId accessToken : String} {cache : Cache} {now : Nat} {k : Nat}
    (h1 : freshContent cache documentId now = none) (h2 : isBlank accessToken = false)
    (h3 : processAttempt (oracle a) = StepResult.retry k) :
    fetchDocumentContent oracle a (fuel + 1) documentId accessToken cache now =
      (fetchDocumentContent oracle (a + 1) fuel documentId accessToken cache now).map
        (fun r => ⟨r.result, r.cache, r.calls + k, r.delay + RETRY_DELAY⟩) := by
  simp [fetchDocumentContent, h1, h2, h3]

/-! Global facts about fetchDocumentContent, by induction on the fuel. -/

theorem fetch_isSome_of_eventually_done {oracle : Nat → Attempt} :
    ∀ (fuel a : Nat) (documentId accessToken : String) (cache : Cache) (now : Nat),
    (∃ n, n < fuel ∧ retryableAttempt (oracle (a + n)) = false) →
    (fetchDocumentContent oracle a fuel documentId accessToken cache now).isSome = true := by
  intro fuel
  induction fuel with
  | zero =>
    rintro a _ _ _ _ ⟨n, hn, _⟩
    exact absurd hn (Nat.not_lt_zero n)
  | succ fuel ih =>
    rintro a documentId accessToken cache now ⟨n, hn, hret⟩
    cases hf : freshContent cache documentId now with
    | some c =>
      simp [@fetch_succ_cache_hit oracle a fuel documentId accessToken cache now c hf]
    | none =>
      cases hb : isBlank accessToken with
      | true =>
        simp [@fetch_succ_blank oracle a fuel documentId accessToken cache now hf hb]
      | false =>
        cases hra : retryableAttempt (oracle a) with
        | false =>
          rcases processAttempt_done_of_not_retryable hra with ⟨c, insertion, k, hpa⟩
          simp [@fetch_succ_done oracle a fuel documentId accessToken cache now _ insertion k hf hb hpa]
        | true =>
          rcases processAttempt_retry_of_retryable hra with ⟨k, hpa⟩
          rw [fetch_succ_retry hf hb hpa]
          have hnext : ∃ m, m < fuel ∧ retryableAttempt (oracle (a + 1 + m)) = false := by
            cases n with
            | zero =>
              rw [Nat.add_zero] at hret
              rw [hret] at hra
              cases hra
            | succ m =>
              refine ⟨m, Nat.lt_of_succ_lt_succ hn, ?_⟩
              have hidx : a + 1 + m = a + (m + 1) := by omega
              rw [hidx]
              exact hret
          have hrec := ih (a + 1) documentId accessToken cache now hnext
          rcases Option.isSome_iff_exists.mp hrec with ⟨r, hr⟩
          simp [hr]

theorem fetch_ok_of_not_blank {oracle : Nat → Attempt} :
    ∀ (fuel a : Nat) {documentId accessToken : String} {cache : Cache} {now : Nat}
    {run : FetchRun},
    isBlank accessToken = false →
    fetchDocumentContent oracle a fuel documentId accessToken cache now = some run →
    ∃ c, run.result = FetchResult.ok c := by
  intro fuel
  induction fuel with
  | zero =>
    intro a documentId accessToken cache now run _ h
    exact absurd h (by simp [fetchDocumentContent])
  | succ fuel ih =>
    intro a documentId accessToken cache now run hb h
    cases hf : freshContent cache documentId now with
    | some c =>
      rw [fetch_succ_cache_hit hf] at h
      injection h with h
      exact ⟨c, by rw [← h]⟩
    | none =>
      cases hra : retryableAttempt (oracle a) with
      | false =>
        rcases processAttempt_done_of_not_retryable hra with ⟨c, insertion, k, hpa⟩
        rw [fetch_succ_done hf hb hpa] at h
        injection h with h
        exact ⟨c, by rw [← h]⟩
      | true =>
        rcases processAttempt_retry_of_retryable hra with ⟨k, hpa⟩
        rw [fetch_succ_retry hf hb hpa] at h
        rcases Option.map_eq_some'.mp h with ⟨r, hr, hrun⟩
        rcases ih (a + 1) hb hr with ⟨c, hc⟩
        exact ⟨c, by rw [← hrun]; exact hc⟩

theorem fetch_cache_extend {oracle : Nat → Attempt} :
    ∀ (fuel a : Nat) {documentId accessToken : String} {cache : Cache} {now : Nat}
    {run : FetchRun},
    fetchDocumentContent oracle a fuel documentId accessToken cache now = some run →
    run.cache = cache ∨ ∃ e, run.cache = (documentId, e) :: cache := by
  intro fuel
  induction fuel with
  | zero =>
    intro a documentId accessToken cache now run h
    exact absurd h (by simp [fetchDocumentContent])
  | succ fuel ih =>
    intro a documentId accessToken cache now run h
    cases hf : freshContent cache documentId now with
    | some c =>
      rw [fetch_succ_cache_hit hf] at h
      injection h with h
      exact Or.inl (by rw [← h])
    | none =>
      cases hb : isBlank accessToken with
      | true =>
        rw [fetch_succ_blank hf hb] at h
        injection h with h
        exact Or.inl (by rw [← h])
      | false =>
        cases hra : retryableAttempt (oracle a) with
        | false =>
          rcases processAttempt_done_of_not_retryable hra with ⟨c, insertion, k, hpa⟩
          rw [fetch_succ_done hf hb hpa] at h
          injection h with h
          cases insertion with
          | some v => exact Or.inr ⟨⟨v, now⟩, by rw [← h]⟩
          | none => exact Or.inl (by rw [← h])
        | true =>
          rcases processAttempt_retry_of_retryable hra with ⟨k, hpa⟩
          rw [fetch_succ_retry hf hb hpa] at h
          rcases Option.map_eq_some'.mp h with ⟨r, hr, hrun⟩
          rcases ih (a + 1) hr with ⟨hc⟩ | ⟨e, hc⟩
          · exact Or.inl (by rw [← hrun]; exact hc)
          · exact Or.inr ⟨e, by rw [← hrun]; exact hc⟩

theorem fetch_result_congr {oracle : Nat → Attempt} :
    ∀ (fuel a : Nat) {documentId accessToken : String} {cache₁ cache₂ : Cache} {now : Nat},
    cache₁.lookup documentId = none → cache₂.lookup documentId = none →
    (fetchDocumentContent oracle a fuel documentId accessToken cache₁ now).map FetchRun.result =
    (fetchDocumentContent oracle a fuel documentId accessToken cache₂ now).map FetchRun.result := by
  intro fuel
  induction fuel with
  | zero =>
    intro a documentId accessToken cache₁ cache₂ now _ _
    simp [fetchDocumentContent]
  | succ fuel ih =>
    intro a documentId accessToken cache₁ cache₂ now h1 h2
    have hf1 : freshContent cache₁ documentId now = none := freshContent_of_lookup_none h1
    have hf2 : freshContent cache₂ documentId now = none := freshContent_of_lookup_none h2
    cases hb : isBlank accessToken with
    | true => rw [fetch_succ_blank hf1 hb, fetch_succ_blank hf2 hb]; rfl
    | false =>
      cases hra : retryableAttempt (oracle a) with
      | false =>
        rcases processAttempt_done_of_not_retryable hra with ⟨c, insertion, k, hpa⟩
        rw [fetch_succ_done hf1 hb hpa, fetch_succ_done hf2 hb hpa]
        cases insertion <;> rfl
      | true =>
        rcases processAttempt_retry_of_retryable hra with ⟨k, hpa⟩
        rw [fetch_succ_retry hf1 hb hpa, fetch_succ_retry hf2 hb hpa,
          Option.map_map, Option.map_map]
        exact ih (a + 1) h1 h2

/-! Lemmas about the aggregation loop. -/

theorem lookup_cons_ne {β : Type} {key : String} {v : β} {rest : List (String × β)}
    {s : String} (h : s ≠ key) : ((key, v) :: rest).lookup s = rest.lookup s := by
  simp [List.lookup, beq_false_of_ne h]

theorem lookup_eq_none_iff_not_mem_keys {β : Type} :
    ∀ (l : List (String × β)) (s : String), l.lookup s = none ↔ s ∉ l.map Prod.fst := by
  intro l s
  induction l with
  | nil => simp [List.lookup]
  | cons p rest ih =>
    rcases p with ⟨key, v⟩
    by_cases h : s = key
    · subst h
      simp [List.lookup]
    · rw [lookup_cons_ne h, ih]
      simp [h]

theorem aggregateFiles_events {fileOracle : String → Nat → Attempt} {fuel : Nat} :
    ∀ (files : List RemoteFile) {accessToken : String} {cache : Cache} {now : Nat}
    {docs : List Document} {cacheOut : Cache} {evs : List Event},
    aggregateFiles fileOracle fuel files accessToken cache now = some (docs, cacheOut, evs) →
    ∀ e ∈ evs, ∃ i, e = Event.fetchCall i accessToken := by
  intro files
  induction files with
  | nil =>
    intro accessToken cache now docs cacheOut evs h e he
    simp only [aggregateFiles, Option.some.injEq, Prod.mk.injEq] at h
    rw [← h.2.2] at he
    cases he
  | cons file rest ih =>
    intro accessToken cache now docs cacheOut evs h e he
    cases hfetch : fetchDocumentContent (fileOracle file.id) 0 fuel file.id accessToken cache now with
    | none =>
      simp only [aggregateFiles, hfetch] at h
      cases h
    | some run =>
      cases hagg : aggregateFiles fileOracle fuel rest accessToken run.cache now with
      | none =>
        simp only [aggregateFiles, hfetch, hagg] at h
        cases h
      | some out =>
        rcases out with ⟨docsR, cacheR, evsR⟩
        cases hres : run.result with
        | ok c =>
          simp only [aggregateFiles, hfetch, hagg, hres, Option.some.injEq, Prod.mk.injEq] at h
          rw [← h.2.2] at he
          rcases List.mem_cons.mp he with he0 | he1
          · exact ⟨file.id, he0⟩
          · exact ih hagg e he1
        | thrown m =>
          simp only [aggregateFiles, hfetch, hagg, hres, Option.some.injEq, Prod.mk.injEq] at h
          rw [← h.2.2] at he
          rcases List.mem_cons.mp he with he0 | he1
          · exact ⟨file.id, he0⟩
          · exact ih hagg e he1

theorem aggregateFiles_spec {fileOracle : String → Nat → Attempt} {fuel : Nat} :
    ∀ (files : List RemoteFile) {accessToken : String} {cache : Cache} {now : Nat},
    isBlank accessToken = false →
    (∀ f ∈ files, cache.lookup f.id = none) →
    (files.map RemoteFile.id).Nodup →
    (∀ f ∈ files, ∃ n, n < fuel ∧ retryableAttempt (fileOracle f.id n) = false) →
    ∃ docs cacheOut evs,
      aggregateFiles fileOracle fuel files accessToken cache now = some (docs, cacheOut, evs) ∧
      docs.length = files.length ∧
      ∀ (j : Nat) (f : RemoteFile), files[j]? = some f →
        ∃ (d : Document), docs[j]? = some d ∧ d.id = f.id ∧ d.name = f.name ∧
          d.url = f.webViewLink ∧ d.lastModified = f.modifiedTime ∧
          ∃ run, fetchDocumentContent (fileOracle f.id) 0 fuel f.id accessToken [] now = some run ∧
            run.result = FetchResult.ok d.content := by
  intro files
  induction files with
  | nil =>
    intro accessToken cache now _ _ _ _
    refine ⟨[], cache, [], rfl, rfl, ?_⟩
    intro j f hj
    simp at hj
  | cons file rest ih =>
    intro accessToken cache now hb hcache hnodup hterm
    have hterm0 := hterm file (List.mem_cons_self file rest)
    have hsome := @fetch_isSome_of_eventually_done (fileOracle file.id)
      fuel 0 file.id accessToken cache now
      (by
        rcases hterm0 with ⟨n, hn, hr⟩
        refine ⟨n, hn, ?_⟩
        rw [Nat.zero_add]
        exact hr)
    rcases Option.isSome_iff_exists.mp hsome with ⟨run, hrun⟩
    rcases fetch_ok_of_not_blank fuel 0 hb hrun with ⟨c, hres⟩
    have hcache0 : cache.lookup file.id = none := hcache file (List.mem_cons_self file rest)
    have hcachext := fetch_cache_extend fuel 0 hrun
    have hrest_lookup : ∀ f ∈ rest, run.cache.lookup f.id = none := by
      intro f hf
      have hne : f.id ≠ file.id := by
        intro he
        apply (List.nodup_cons.mp hnodup).1
        rw [← he]
        exact List.mem_map_of_mem RemoteFile.id hf
      rcases hcachext with hsame | ⟨e, hext⟩
      · rw [hsame]
        exact hcache f (List.mem_cons_of_mem file hf)
      · rw [hext, lookup_cons_ne hne]
        exact hcache f (List.mem_cons_of_mem file hf)
    have ihres := @ih accessToken run.cache now hb hrest_lookup (List.nodup_cons.mp hnodup).2
      (fun f hf => hterm f (List.mem_cons_of_mem file hf))
    rcases ihres with ⟨docs, cacheOut, evs, hagg, hlen, hspec⟩
    refine ⟨⟨file.id, file.name, c, file.webViewLink, file.modifiedTime⟩ :: docs, cacheOut,
      Event.fetchCall file.id accessToken :: evs, ?_, by simp [hlen], ?_⟩
    · simp only [aggregateFiles, hrun, hagg, hres]
    · intro j f hj
      cases j with
      | zero =>
        rw [List.getElem?_cons_zero] at hj
        injection hj with hj
        subst hj
        refine ⟨⟨file.id, file.name, c, file.webViewLink, file.modifiedTime⟩,
          by rw [List.getElem?_cons_zero], rfl, rfl, rfl, rfl, ?_⟩
        have hcongr := @fetch_result_congr (fileOracle file.id) fuel 0
          file.id accessToken cache ([] : Cache) now hcache0 (by simp [List.lookup])
        rw [hrun] at hcongr
        rcases Option.map_eq_some'.mp hcongr.symm with ⟨runE, hrunE, hresE⟩
        exact ⟨runE, hrunE, by rw [hresE, hres]⟩
      | succ j =>
        rw [List.getElem?_cons_succ] at hj
        rcases hspec j f hj with ⟨d, hd, hrest⟩
        exact ⟨d, by rw [List.getElem?_cons_succ]; exact hd, hrest⟩

/-! Claim theorems about the Document Fetcher. -/

/-- C10: fetchDocumentContent raises the Invalid access token error if and
only if the access token is blank (empty or whitespace-only) and there is
no cache entry for the requested file id younger than the TTL; and with a
fresh cache entry the cached content is returned even for a blank token,
because the cache is consulted before the token is validated. -/
theorem c10_invalid_token_iff :
    ∀ (oracle : Nat → Attempt) (a fuel : Nat) (documentId accessToken : String)
    (cache : Cache) (now : Nat) (run : FetchRun),
    fetchDocumentContent oracle a fuel documentId accessToken cache now = some run →
    ((run.result = FetchResult.thrown "Invalid access token") ↔
      (isBlank accessToken = true ∧ freshContent cache documentId now = none)) ∧
    (∀ c, freshContent cache documentId now = some c → run.result = FetchResult.ok c) := by
  intro oracle a fuel documentId accessToken cache now run h
  cases fuel with
  | zero => exact absurd h (by simp [fetchDocumentContent])
  | succ fuel =>
    cases hf : freshContent cache documentId now with
    | some c =>
      rw [fetch_succ_cache_hit hf] at h
      injection h with h
      subst h
      simp
    | none =>
      cases hb : isBlank accessToken with
      | true =>
        rw [fetch_succ_blank hf hb] at h
        injection h with h
        subst h
        simp
      | false =>
        rcases fetch_ok_of_not_blank (fuel + 1) a hb h with ⟨c, hc⟩
        simp [hc]

/-- C10 witness: a fetch with an empty token and empty cache does throw the
Invalid access token error, so the forward direction of the iff yields
that the token is blank and the cache has no fresh entry. -/
theorem c10_invalid_token_iff_witness :
    isBlank "" = true ∧ freshContent ([] : Cache) "file1" 0 = none := by
  have h := c10_invalid_token_iff
    (fun _ => ⟨Except.error ⟨none, "x"⟩, Except.error ⟨none, "x"⟩⟩)
    0 1 "file1" "" [] 0 ⟨FetchResult.thrown "Invalid access token", [], 0, 0⟩ (by decide)
  exact h.1.mp rfl

/-- C8: a file whose resolved MIME type is not in the supported set yields
content exactly the bracketed unsupported-file-type message naming that
MIME type, returned normally with no error (and no cache write). -/
theorem c8_unsupported_type
    (oracle : Nat → Attempt) (a fuel : Nat) (documentId accessToken : String)
    (cache : Cache) (now : Nat) (m : FileMeta)
    (hcache : freshContent cache documentId now = none)
    (htok : isBlank accessToken = false)
    (hmeta : (oracle a).meta = Except.ok m)
    (hunsupp : m.mimeType ∉ SUPPORTED_MIME_TYPES.map Prod.fst) :
    fetchDocumentContent oracle a (fuel + 1) documentId accessToken cache now =
      some ⟨FetchResult.ok ("[Unsupported file type: " ++ m.mimeType ++ "]"), cache, 1, 0⟩ := by
  have hd : docTypeOf m.mimeType = none := by
    unfold docTypeOf
    exact (lookup_eq_none_iff_not_mem_keys SUPPORTED_MIME_TYPES m.mimeType).mpr hunsupp
  have hpa : processAttempt (oracle a) =
      StepResult.done (FetchResult.ok ("[Unsupported file type: " ++ m.mimeType ++ "]")) none 1 := by
    simp [processAttempt, hmeta, hd]
  exact fetch_succ_done hcache htok hpa

/-- C8 witness: an image file is reported with the exact unsupported-type
placeholder. -/
theorem c8_unsupported_type_witness :
    fetchDocumentContent (fun _ => ⟨Except.ok ⟨"image/png", "p.png"⟩, Except.ok "x"⟩)
      0 1 "file1" "tok" [] 7 =
      some ⟨FetchResult.ok ("[Unsupported file type: " ++ "image/png" ++ "]"), [], 1, 0⟩ :=
  c8_unsupported_type (fun _ => ⟨Except.ok ⟨"image/png", "p.png"⟩, Except.ok "x"⟩)
    0 0 "file1" "tok" [] 7 ⟨"image/png", "p.png"⟩ (by decide) (by decide) rfl (by decide)

/-- C4: a successful fetch yielding non-empty content writes that content
into the cache keyed by the file id with the current timestamp; fetching
the same file id again while the entry age is strictly below the TTL
returns the identical content and issues no remote call (zero calls). -/
theorem c4_cache_idempotent
    (oracle : Nat → Attempt) (fuel : Nat) (documentId accessToken : String)
    (cache : Cache) (now : Nat) (m : FileMeta) (tag c : String)
    (hcache : freshContent cache documentId now = none)
    (htok : isBlank accessToken = false)
    (hmeta : (oracle 0).meta = Except.ok m)
    (htag : docTypeOf m.mimeType = some tag)
    (hbody : (oracle 0).body = Except.ok c)
    (hne : c ≠ "") :
    fetchDocumentContent oracle 0 (fuel + 1) documentId accessToken cache now =
      some ⟨FetchResult.ok c, (documentId, ⟨c, now⟩) :: cache, 2, 0⟩ ∧
    ∀ (oracle₂ : Nat → Attempt) (fuel₂ : Nat) (accessToken₂ : String) (now₂ : Nat),
      now₂ - now < CACHE_TTL →
      fetchDocumentContent oracle₂ 0 (fuel₂ + 1) documentId accessToken₂
        ((documentId, ⟨c, now⟩) :: cache) now₂ =
        some ⟨FetchResult.ok c, (documentId, ⟨c, now⟩) :: cache, 0, 0⟩ := by
  constructor
  · have hpa : processAttempt (oracle 0) = StepResult.done (FetchResult.ok c) (some c) 2 := by
      simp [processAttempt, hmeta, htag, hbody, hne]
    exact fetch_succ_done hcache htok hpa
  · intro oracle₂ fuel₂ accessToken₂ now₂ httl
    have hf : freshContent ((documentId, ⟨c, now⟩) :: cache) documentId now₂ = some c := by
      simp [freshContent, List.lookup, httl]
    exact fetch_succ_cache_hit hf

/-- C4 witness: a plain text file fetched at time 7 is cached with
timestamp 7, and a second fetch at time 8 returns the identical content
with zero remote calls, whatever oracle and token the second call gets. -/
theorem c4_cache_idempotent_witness :
    fetchDocumentContent (fun _ => ⟨Except.ok ⟨"text/plain", "a.txt"⟩, Except.ok "hello"⟩)
      0 1 "file1" "tok" [] 7 =
      some ⟨FetchResult.ok "hello", [("file1", ⟨"hello", 7⟩)], 2, 0⟩ ∧
    fetchDocumentContent (fun _ => ⟨Except.error ⟨none, "down"⟩, Except.error ⟨none, "down"⟩⟩)
      0 1 "file1" "" [("file1", ⟨"hello", 7⟩)] 8 =
      some ⟨FetchResult.ok "hello", [("file1", ⟨"hello", 7⟩)], 0, 0⟩ := by
  have h := c4_cache_idempotent (fun _ => ⟨Except.ok ⟨"text/plain", "a.txt"⟩, Except.ok "hello"⟩)
    0 "file1" "tok" [] 7 ⟨"text/plain", "a.txt"⟩ "text" "hello"
    (by decide) (by decide) rfl (by decide) rfl (by decide)
  exact ⟨h.1, h.2 (fun _ => ⟨Except.error ⟨none, "down"⟩, Except.error ⟨none, "down"⟩⟩)
    0 "" 8 (by decide)⟩

/-- C5 as stated is refuted: with an empty access token and an empty cache
the function does not return normally with a string; it raises the Invalid
access token error, which propagates to the caller. -/
theorem c5_soft_failure_cex :
    fetchDocumentContent (fun _ => ⟨Except.error ⟨none, "boom"⟩, Except.error ⟨none, "boom"⟩⟩)
      0 1 "file1" "" [] 0 =
      some ⟨FetchResult.thrown "Invalid access token", [], 0, 0⟩ ∧
    ∀ s, (FetchResult.thrown "Invalid access token" ≠ FetchResult.ok s) :=
  ⟨by decide, fun s h => FetchResult.noConfusion h⟩

/-- C5 amended: when the access token is not blank, fetchDocumentContent
never propagates an exception, and any non-retryable failure of an attempt
yields the normal return of the bracketed placeholder embedding the error
message; a blank access token without a fresh cache entry instead raises
the Invalid access token error (see the counterexample). -/
theorem c5_soft_failure :
    (∀ (oracle : Nat → Attempt) (a fuel : Nat) (documentId accessToken : String)
      (cache : Cache) (now : Nat) (run : FetchRun),
      isBlank accessToken = false →
      fetchDocumentContent oracle a fuel documentId accessToken cache now = some run →
      ∀ msg, run.result ≠ FetchResult.thrown msg) ∧
    (∀ (oracle : Nat → Attempt) (a fuel : Nat) (documentId accessToken : String)
      (cache : Cache) (now : Nat) (msg : String),
      freshContent cache documentId now = none →
      isBlank accessToken = false →
      nonRetryableFailure (oracle a) msg →
      ∃ k, fetchDocumentContent oracle a (fuel + 1) documentId accessToken cache now =
        some ⟨FetchResult.ok (errorText msg), cache, k, 0⟩) := by
  constructor
  · intro oracle a fuel documentId accessToken cache now run hb h msg hthr
    rcases fetch_ok_of_not_blank fuel a hb h with ⟨c, hc⟩
    rw [hc] at hthr
    cases hthr
  · intro oracle a fuel documentId accessToken cache now msg hf hb hfail
    rcases processAttempt_of_nonRetryableFailure hfail with ⟨k, hpa⟩
    exact ⟨k, fetch_succ_done hf hb hpa⟩

/-- C5 witness: a metadata failure with code 500 returns the bracketed
placeholder embedding the message. -/
theorem c5_soft_failure_witness :
    ∃ k, fetchDocumentContent (fun _ => ⟨Except.error ⟨some 500, "boom"⟩, Except.error ⟨some 500, "boom"⟩⟩)
      0 1 "file1" "tok" [] 0 =
      some ⟨FetchResult.ok (errorText "boom"), [], k, 0⟩ :=
  c5_soft_failure.2 (fun _ => ⟨Except.error ⟨some 500, "boom"⟩, Except.error ⟨some 500, "boom"⟩⟩)
    0 0 "file1" "tok" [] 0 "boom" (by decide) (by decide)
    (Or.inl ⟨⟨some 500, "boom"⟩, rfl, by decide, rfl⟩)

/-- C3: the 429/503 retry recursion of the richest fetchDocumentContent has
no maximum-attempt cap.  First part: when every attempt answers 429 or 503
and the call actually reaches the remote side (non-blank token, no fresh
cache entry), the fetch completes within no fuel bound at all, so it
terminates only if the remote API eventually stops responding 429/503.
Second part: a retryable attempt makes the function wait the fixed
RETRY_DELAY and restart the entire fetch by recursive self-call on the next
attempt.  Third part: as soon as some attempt within the fuel is not
retryable, the fetch completes. -/
theorem c3_retry_unbounded :
    (∀ (oracle : Nat → Attempt) (a : Nat) (documentId accessToken : String)
      (cache : Cache) (now : Nat),
      isBlank accessToken = false →
      freshContent cache documentId now = none →
      (∀ n, retryableAttempt (oracle (a + n)) = true) →
      ∀ fuel, fetchDocumentContent oracle a fuel documentId accessToken cache now = none) ∧
    (∀ (oracle : Nat → Attempt) (a fuel : Nat) (documentId accessToken : String)
      (cache : Cache) (now : Nat),
      isBlank accessToken = false →
      freshContent cache documentId now = none →
      retryableAttempt (oracle a) = true →
      ∃ k, fetchDocumentContent oracle a (fuel + 1) documentId accessToken cache now =
        (fetchDocumentContent oracle (a + 1) fuel documentId accessToken cache now).map
          (fun r => ⟨r.result, r.cache, r.calls + k, r.delay + RETRY_DELAY⟩)) ∧
    (∀ (oracle : Nat → Attempt) (a fuel : Nat) (documentId accessToken : String)
      (cache : Cache) (now : Nat),
      (∃ n, n < fuel ∧ retryableAttempt (oracle (a + n)) = false) →
      (fetchDocumentContent oracle a fuel documentId accessToken cache now).isSome = true) := by
  refine ⟨?_, ?_, ?_⟩
  · intro oracle a documentId accessToken cache now hb hf hall fuel
    induction fuel generalizing a with
    | zero => rfl
    | succ fuel ih =>
      have h0 : retryableAttempt (oracle a) = true := by
        have h := hall 0
        rwa [Nat.add_zero] at h
      rcases processAttempt_retry_of_retryable h0 with ⟨k, hpa⟩
      rw [fetch_succ_retry hf hb hpa]
      have hall1 : ∀ n, retryableAttempt (oracle (a + 1 + n)) = true := by
        intro n
        have h := hall (n + 1)
        have hidx : a + 1 + n = a + (n + 1) := by omega
        rwa [hidx]
      rw [ih (a + 1) hall1]
      rfl
  · intro oracle a fuel documentId accessToken cache now hb hf hra
    rcases processAttempt_retry_of_retryable hra with ⟨k, hpa⟩
    exact ⟨k, fetch_succ_retry hf hb hpa⟩
  · intro oracle a fuel documentId accessToken cache now h
    exact fetch_isSome_of_eventually_done fuel a documentId accessToken cache now h

/-- C3 witness: under an oracle that always answers 429, three units of
fuel are not enough to complete (nor is any amount), and the one-step
unfolding applies at the first attempt. -/
theorem c3_retry_unbounded_witness :
    fetchDocumentContent (fun _ => ⟨Except.error ⟨some 429, "rate"⟩, Except.error ⟨some 429, "rate"⟩⟩)
      0 3 "file1" "tok" [] 0 = none ∧
    (fetchDocumentContent (fun _ => ⟨Except.ok ⟨"text/plain", "a.txt"⟩, Except.ok "hi"⟩)
      0 1 "file1" "tok" [] 0).isSome = true := by
  constructor
  · exact c3_retry_unbounded.1 (fun _ => ⟨Except.error ⟨some 429, "rate"⟩, Except.error ⟨some 429, "rate"⟩⟩)
      0 "file1" "tok" [] 0 (by decide) (by decide) (fun _ => rfl) 3
  · exact c3_retry_unbounded.2.2 (fun _ => ⟨Except.ok ⟨"text/plain", "a.txt"⟩, Except.ok "hi"⟩)
      0 1 "file1" "tok" [] 0 ⟨0, by decide, by decide⟩

/-! String helper lemmas. -/

theorem string_join_cons (a : String) (l : List String) :
    String.join (a :: l) = a ++ String.join l := by
  rw [String.join_eq, String.join_eq]
  rfl

theorem string_join_append (l₁ l₂ : List String) :
    String.join (l₁ ++ l₂) = String.join l₁ ++ String.join l₂ := by
  induction l₁ with
  | nil =>
    rw [List.nil_append, show String.join ([] : List String) = "" from rfl, String.empty_append]
  | cons a rest ih =>
    rw [List.cons_append, string_join_cons, string_join_cons, ih, String.append_assoc]

/-! Claim theorems about the PDF line-join heuristic. -/

theorem parseTextGo_append (more : List PdfItem) :
    ∀ (items : List PdfItem) (lastY : Option Int),
    parseTextGo lastY (items ++ more) =
      parseTextGo lastY items ++ parseTextGo (lastRunYFrom lastY items) more := by
  intro items
  induction items with
  | nil => intro lastY; rfl
  | cons it rest ih =>
    intro lastY
    cases it with
    | marked => exact ih lastY
    | run s y =>
      simp only [List.cons_append, parseTextGo, List.append_eq]
      rw [ih (some y)]
      simp [lastRunYFrom]

/-- C6 as stated is refuted: two consecutive text runs whose vertical
transform coordinates differ (0 for the first, 90 for the second) are
nevertheless concatenated with no separator, because a previous coordinate
of 0 is falsy in the JavaScript condition; the claim demands a newline
before the second run here. -/
theorem c6_pdf_line_join_cex :
    parseText [PdfItem.run "Hello" 0, PdfItem.run "World" 90] = "HelloWorld" ∧
    ("HelloWorld" : String) ≠ "Hello\nWorld" := ⟨by decide, by decide⟩

/-- C6 amended: for a text run preceded by some text run, the texts are
concatenated with no separator when the vertical coordinates are exactly
equal and also when the coordinate of the preceding run is exactly 0 (the
falsy case); in every other case a newline is inserted before the text of
the run. -/
theorem c6_pdf_line_join :
    ∀ (items rest : List PdfItem) (s : String) (y ly : Int),
    lastRunY items = some ly →
    parseText (items ++ PdfItem.run s y :: rest) =
      parseText items ++ ((if ly = y ∨ ly = 0 then s else "\n" ++ s) ++
        String.join (parseTextGo (some y) rest)) := by
  intro items rest s y ly hly
  unfold parseText
  rw [parseTextGo_append (PdfItem.run s y :: rest) items none]
  unfold lastRunY at hly
  rw [hly, string_join_append]
  simp only [parseTextGo]
  rw [string_join_cons]

/-- C6 amended witness: runs at coordinates 100 and 90 are joined with a
newline, and runs at coordinates 100 and 100 with no separator. -/
theorem c6_pdf_line_join_witness :
    parseText [PdfItem.run "Hello" 100, PdfItem.run "World" 90] =
      "Hello" ++ ("\n" ++ "World" ++ String.join (parseTextGo (some 90) [])) ∧
    parseText [PdfItem.run "Hello" 100, PdfItem.run "World" 100] =
      "Hello" ++ ("World" ++ String.join (parseTextGo (some 100) [])) := by
  constructor
  · have h := c6_pdf_line_join [PdfItem.run "Hello" 100] [] "World" 90 100 (by decide)
    rw [if_neg (by decide)] at h
    exact h
  · have h := c6_pdf_line_join [PdfItem.run "Hello" 100] [] "World" 100 100 (by decide)
    rw [if_pos (by decide)] at h
    exact h

/-! Claim theorems about the Token Refresher. -/

/-- C7 as stated is refuted: when the provider answers 2xx with a body that
omits the access token, refreshToken succeeds and returns that body instead
of raising an error; the function also performs no local validation of an
empty refresh token, as the second conjunct shows. -/
theorem c7_refresh_failure_cex :
    refreshToken "some-refresh-token" ⟨true, ⟨none, some 3600⟩⟩ =
      Except.ok ⟨none, some 3600⟩ ∧
    refreshToken "" ⟨true, ⟨some "fresh", some 3600⟩⟩ =
      Except.ok ⟨some "fresh", some 3600⟩ := ⟨rfl, rfl⟩

/-- C7 amended: refreshToken fails, with the fixed message, exactly when
the provider responds non-2xx; on a 2xx response it returns the parsed body
as is, whatever it contains, and the refresh token argument is never
validated locally. -/
theorem c7_refresh_failure :
    ∀ (refreshTokenValue : String) (response : RefreshHttpResponse),
    ((∃ msg, refreshToken refreshTokenValue response = Except.error msg) ↔ response.ok = false) ∧
    (response.ok = true → refreshToken refreshTokenValue response = Except.ok response.body) := by
  intro refreshTokenValue response
  cases hok : response.ok with
  | true =>
    constructor
    · constructor
      · rintro ⟨msg, hmsg⟩
        rw [refreshToken, hok] at hmsg
        cases hmsg
      · intro h
        cases h
    · intro _
      rw [refreshToken, hok]
      rfl
  | false =>
    constructor
    · constructor
      · intro _
        rfl
      · intro _
        exact ⟨"Failed to refresh token", by rw [refreshToken, hok]; rfl⟩
    · intro h
      cases h

/-- C7 amended witness: a non-2xx response makes refreshToken fail. -/
theorem c7_refresh_failure_witness :
    ∃ msg, refreshToken "rt" ⟨false, ⟨some "a", some 1⟩⟩ = Except.error msg :=
  (c7_refresh_failure "rt" ⟨false, ⟨some "a", some 1⟩⟩).1.mpr rfl

/-! Claim theorems about the spreadsheet extractor. -/

/-- C9 as stated is refuted: on a single row with formatted values a,
empty, b, joining the cell values with tabs and the rows with newlines
gives a-tab-tab-b, but the extractor drops the empty cell and appends a
trailing newline, giving a-tab-b-newline. -/
theorem c9_sheet_extract_cex :
    extractTextFromSheet [⟨some [⟨some [⟨some [⟨some "a"⟩, ⟨some ""⟩, ⟨some "b"⟩]⟩]⟩]⟩] =
      "a\tb\n" ∧
    extractTextFromSheetSpec [⟨some [⟨some [⟨some [⟨some "a"⟩, ⟨some ""⟩, ⟨some "b"⟩]⟩]⟩]⟩] =
      "a\t\tb" ∧
    ("a\tb\n" : String) ≠ "a\t\tb" := ⟨by decide, by decide, by decide⟩

theorem extract_rows_fold (rows : List SheetRow) :
    ∀ (t : String),
    rows.foldl (fun t row =>
        match row.values with
        | none => t
        | some cells =>
          if rowText cells = "" then t else t ++ rowText cells ++ "\n") t =
      t ++ String.join ((rows.filterMap (fun row =>
        match row.values with
        | none => none
        | some cells =>
          if rowText cells = "" then none else some (rowText cells))).map
          (fun r => r ++ "\n")) := by
  induction rows with
  | nil =>
    intro t
    rw [List.foldl_nil, List.filterMap_nil, List.map_nil,
      show String.join ([] : List String) = "" from rfl, String.append_empty]
  | cons row rest ih =>
    intro t
    cases hv : row.values with
    | none =>
      rw [List.foldl_cons, List.filterMap_cons]
      simp only [hv]
      exact ih t
    | some cells =>
      by_cases hr : rowText cells = ""
      · rw [List.foldl_cons, List.filterMap_cons]
        simp only [hv, hr, if_pos rfl]
        simpa [hr] using ih t
      · rw [List.foldl_cons, List.filterMap_cons]
        simp only [hv, if_neg hr]
        rw [ih (t ++ rowText cells ++ "\n"), List.map_cons, string_join_cons]
        simp [String.append_assoc]

/-- C9 amended: the extractor walks, for every sheet, the rows of the first
data grid only; each kept row contributes the tab-join of its non-empty
formatted cell values (empty cells are dropped) followed by a newline, and
rows with no values field or an empty row text are skipped entirely, so
each kept row ends in a newline rather than the rows being newline-joined. -/
theorem c9_sheet_extract :
    ∀ (sheets : List Sheet),
    extractTextFromSheet sheets =
      String.join ((nonEmptyRowTexts sheets).map (fun r => r ++ "\n")) := by
  have general : ∀ (sheets : List Sheet) (t : String),
      sheets.foldl (fun text sheet =>
        match sheet.data with
        | none => text
        | some grids =>
          match grids.head? with
          | none => text
          | some grid =>
            match grid.rowData with
            | none => text
            | some rows =>
              rows.foldl (fun t row =>
                match row.values with
                | none => t
                | some cells =>
                  if rowText cells = "" then t else t ++ rowText cells ++ "\n") text) t =
      t ++ String.join ((nonEmptyRowTexts sheets).map (fun r => r ++ "\n")) := by
    intro sheets
    induction sheets with
    | nil =>
      intro t
      rw [List.foldl_nil,
        show nonEmptyRowTexts [] = [] from rfl, List.map_nil,
        show String.join ([] : List String) = "" from rfl, String.append_empty]
    | cons sheet rest ih =>
      intro t
      rw [List.foldl_cons]
      cases hd : sheet.data with
      | none =>
        simp only [hd]
        rw [ih t]
        have hne : nonEmptyRowTexts (sheet :: rest) = nonEmptyRowTexts rest := by
          simp [nonEmptyRowTexts, hd]
        rw [hne]
      | some grids =>
        cases hg : grids.head? with
        | none =>
          simp only [hd, hg]
          rw [ih t]
          have hne : nonEmptyRowTexts (sheet :: rest) = nonEmptyRowTexts rest := by
            simp [nonEmptyRowTexts, hd, hg]
          rw [hne]
        | some grid =>
          cases hr : grid.rowData with
          | none =>
            simp only [hd, hg, hr]
            rw [ih t]
            have hne : nonEmptyRowTexts (sheet :: rest) = nonEmptyRowTexts rest := by
              simp [nonEmptyRowTexts, hd, hg, hr]
            rw [hne]
          | some rows =>
            simp only [hd, hg, hr]
            rw [extract_rows_fold rows t, ih, String.append_assoc]
            have hne : nonEmptyRowTexts (sheet :: rest) =
                (rows.filterMap (fun row =>
                  match row.values with
                  | none => none
                  | some cells =>
                    if rowText cells = "" then none else some (rowText cells))) ++
                nonEmptyRowTexts rest := by
              simp [nonEmptyRowTexts, hd, hg, hr]
            rw [hne, List.map_append, string_join_append]
  intro sheets
  have h := general sheets ""
  rw [String.empty_append] at h
  exact h

/-! Claim theorems about the Document Aggregator. -/

theorem runListing_shape {listingOutcome : Option (List RemoteFile)} {failMessage : String}
    {fileOracle : String → Nat → Attempt} {fuel : Nat} {accessToken : String}
    {cache : Cache} {now : Nat} {eventsBefore : List Event} {run : AggRun}
    (h : runListing listingOutcome failMessage fileOracle fuel accessToken cache now
      eventsBefore = some run) :
    ∃ tail, run.events = eventsBefore ++ Event.listingCall accessToken :: tail ∧
      ∀ e ∈ tail, ∃ i, e = Event.fetchCall i accessToken := by
  cases listingOutcome with
  | none =>
    simp only [runListing] at h
    injection h with h
    refine ⟨[], ?_, ?_⟩
    · rw [← h]
    · intro e he
      cases he
  | some files =>
    cases hagg : aggregateFiles fileOracle fuel files accessToken cache now with
    | none =>
      simp only [runListing, hagg] at h
      cases h
    | some out =>
      rcases out with ⟨docs, cacheOut, fetchEvents⟩
      simp only [runListing, hagg] at h
      injection h with h
      refine ⟨fetchEvents, ?_, ?_⟩
      · rw [← h]
      · exact aggregateFiles_events files hagg

/-- C1: when a non-retryable error makes the content fetch of the k-th
listed file fail, searchDocuments and getAllDocuments still return
normally (no exception escapes), the result has exactly one Document per
listed file, and the k-th entry carries the bracketed error placeholder as
its content: a listed file is never silently omitted.  Hypotheses: the
credential resolves (after any refresh) to a non-blank access token, the
listed file ids are distinct and not cached yet, every file gets a
non-retryable oracle answer within the fuel, and for searchDocuments the
query yields at least one usable term. -/
theorem c1_partial_failure
    (cred : Credential) (refreshOutcome : Except String RefreshedToken)
    (files : List RemoteFile) (fileOracle : String → Nat → Attempt) (fuel : Nat)
    (query : String) (cache : Cache) (now : Nat) (tok : String)
    (k : Nat) (fk : RemoteFile) (msg : String) (run : AggRun)
    (htok : effectiveToken cred refreshOutcome now = some tok)
    (hblank : isBlank tok = false)
    (hterms : ¬ cleanTerms query = [])
    (hcache : ∀ f ∈ files, cache.lookup f.id = none)
    (hnodup : (files.map RemoteFile.id).Nodup)
    (hterm : ∀ f ∈ files, ∃ n, n < fuel ∧ retryableAttempt (fileOracle f.id n) = false)
    (hk : files[k]? = some fk)
    (hfail : nonRetryableFailure (fileOracle fk.id 0) msg)
    (hrun : searchDocuments (some cred) refreshOutcome (some files) fileOracle fuel
        query cache now = some run ∨
      getAllDocuments (some cred) refreshOutcome (some files) fileOracle fuel
        cache now = some run) :
    ∃ docs, run.result = AggResult.ok docs ∧ docs.length = files.length ∧
      ∃ d, docs[k]? = some d ∧ d.id = fk.id ∧ d.content = errorText msg := by
  rcases @aggregateFiles_spec fileOracle fuel files tok cache now hblank hcache hnodup hterm with
    ⟨docs, cacheOut, evs, haggEq, hlen, hspec⟩
  have hmem : fk ∈ files := List.getElem?_mem hk
  have main : run.result = AggResult.ok docs := by
    rcases hrun with h | h
    · by_cases hlt : cred.expiresAt < now
      · simp only [effectiveToken, if_pos hlt] at htok
        cases refreshOutcome with
        | error m => exact absurd htok (by simp)
        | ok r =>
          injection htok with htok
          subst htok
          simp only [searchDocuments, if_pos hlt, if_neg hterms, runListing, haggEq] at h
          injection h with h
          rw [← h]
      · simp only [effectiveToken, if_neg hlt] at htok
        injection htok with htok
        subst htok
        simp only [searchDocuments, if_neg hlt, if_neg hterms, runListing, haggEq] at h
        injection h with h
        rw [← h]
    · by_cases hlt : cred.expiresAt < now
      · simp only [effectiveToken, if_pos hlt] at htok
        cases refreshOutcome with
        | error m => exact absurd htok (by simp)
        | ok r =>
          injection htok with htok
          subst htok
          simp only [getAllDocuments, if_pos hlt, runListing, haggEq] at h
          injection h with h
          rw [← h]
      · simp only [effectiveToken, if_neg hlt] at htok
        injection htok with htok
        subst htok
        simp only [getAllDocuments, if_neg hlt, runListing, haggEq] at h
        injection h with h
        rw [← h]
  refine ⟨docs, main, hlen, ?_⟩
  rcases hspec k fk hk with ⟨d, hd, hid, _, _, _, runF, hrunF, hresF⟩
  obtain ⟨fuelm, rfl⟩ : ∃ m, fuel = m + 1 := by
    rcases hterm fk hmem with ⟨n, hn, _⟩
    exact ⟨fuel - 1, by omega⟩
  have hfreshNil : freshContent ([] : Cache) fk.id now = none := rfl
  rcases processAttempt_of_nonRetryableFailure hfail with ⟨kk, hpa⟩
  have hcanon := @fetch_succ_done (fileOracle fk.id) 0 fuelm fk.id tok [] now
    (FetchResult.ok (errorText msg)) none kk hfreshNil hblank hpa
  rw [hrunF] at hcanon
  injection hcanon with hcanon
  have hres2 : runF.result = FetchResult.ok (errorText msg) := by
    rw [hcanon]
  rw [hres2] at hresF
  injection hresF with hresF
  exact ⟨d, hd, hid, hresF.symm⟩

/-- C1 witness: one listed file whose metadata call fails with code 500
yields a one-entry result whose entry carries the error placeholder. -/
theorem c1_partial_failure_witness :
    ∃ docs,
      (⟨AggResult.ok [⟨"file1", "File 1", "[Error: boom]", "u", "m"⟩],
        [Event.listingCall "at", Event.fetchCall "file1" "at"]⟩ : AggRun).result =
          AggResult.ok docs ∧
      docs.length = ([(⟨"file1", "File 1", "u", "m"⟩ : RemoteFile)]).length ∧
      ∃ d, docs[0]? = some d ∧ d.id = "file1" ∧ d.content = errorText "boom" := by
  exact c1_partial_failure ⟨"t1", "at", "rt", 100⟩ (Except.error "x")
    [⟨"file1", "File 1", "u", "m"⟩]
    (fun _ _ => ⟨Except.error ⟨some 500, "boom"⟩, Except.error ⟨some 500, "boom"⟩⟩)
    1 "hello" [] 50 "at" 0 ⟨"file1", "File 1", "u", "m"⟩ "boom"
    ⟨AggResult.ok [⟨"file1", "File 1", "[Error: boom]", "u", "m"⟩],
      [Event.listingCall "at", Event.fetchCall "file1" "at"]⟩
    (by decide) (by decide) (by decide)
    (by intro f hf; rfl)
    (by decide)
    (by intro f hf; exact ⟨0, Nat.zero_lt_one, rfl⟩)
    rfl
    (Or.inl ⟨⟨some 500, "boom"⟩, rfl, rfl, rfl⟩)
    (Or.inl (by decide))

theorem fetch_tail_no_refresh {tk : String} {tail : List Event}
    (hall : ∀ e ∈ tail, ∃ i, e = Event.fetchCall i tk) : Event.refreshCall ∉ tail := by
  intro hmem
  rcases hall _ hmem with ⟨i, hi⟩
  cases hi

theorem count_refresh_shape (a : String) (expiry : Nat) (rest : List Event)
    (hno : Event.refreshCall ∉ rest) :
    (Event.refreshCall :: Event.persistToken a expiry :: rest).count Event.refreshCall = 1 := by
  rw [List.count_cons_self, List.count_cons_of_ne (by intro hcon; cases hcon),
    List.count_eq_zero.mpr hno]

theorem count_refresh_zero_listing (tk : String) (tail : List Event)
    (hall : ∀ e ∈ tail, ∃ i, e = Event.fetchCall i tk) :
    (Event.listingCall tk :: tail).count Event.refreshCall = 0 := by
  apply List.count_eq_zero.mpr
  intro hmem
  rcases List.mem_cons.mp hmem with heq | hmem2
  · cases heq
  · exact fetch_tail_no_refresh hall hmem2

theorem rest_membership_props (tk : String) (tail : List Event)
    (hall : ∀ e ∈ tail, ∃ i, e = Event.fetchCall i tk) :
    (∀ t, Event.listingCall t ∈ (Event.listingCall tk :: tail) → t = tk) ∧
    (∀ i t, Event.fetchCall i t ∈ (Event.listingCall tk :: tail) → t = tk) := by
  constructor
  · intro t ht
    rcases List.mem_cons.mp ht with heq | hmem
    · injection heq with heq
    · rcases hall _ hmem with ⟨i, hi⟩
      cases hi
  · intro i t ht
    rcases List.mem_cons.mp ht with heq | hmem
    · cases heq
    · rcases hall _ hmem with ⟨i2, hi⟩
      injection hi with hi1 hi2

/-- C2: with a stored credential whose expiresAt lies in the past at the
start of searchDocuments or getAllDocuments, exactly one token refresh
call is made and it is the first remote interaction; when the refresh
succeeds, the refreshed access token together with the new expiry
(now plus expires_in seconds in milliseconds) is persisted immediately
after the refresh and before the drive listing call and every per-file
fetch, all of which use exactly the refreshed access token.  When
expiresAt is not in the past, no refresh call is made at all. -/
theorem c2_refresh_trigger
    (cred : Credential) (refreshOutcome : Except String RefreshedToken)
    (listingOutcome : Option (List RemoteFile))
    (fileOracle : String → Nat → Attempt) (fuel : Nat)
    (query : String) (cache : Cache) (now : Nat) (run : AggRun)
    (hrun : searchDocuments (some cred) refreshOutcome listingOutcome fileOracle fuel
        query cache now = some run ∨
      getAllDocuments (some cred) refreshOutcome listingOutcome fileOracle fuel
        cache now = some run) :
    (cred.expiresAt < now →
      run.events.count Event.refreshCall = 1 ∧
      ∀ r, refreshOutcome = Except.ok r →
        ∃ rest, run.events = Event.refreshCall ::
            Event.persistToken r.access_token (now + r.expires_in * 1000) :: rest ∧
          (∀ t, Event.listingCall t ∈ rest → t = r.access_token) ∧
          (∀ i t, Event.fetchCall i t ∈ rest → t = r.access_token) ∧
          Event.refreshCall ∉ rest) ∧
    (¬ cred.expiresAt < now → run.events.count Event.refreshCall = 0) := by
  rcases hrun with h | h
  · by_cases hlt : cred.expiresAt < now
    · cases refreshOutcome with
      | error m =>
        simp only [searchDocuments, if_pos hlt] at h
        injection h with h
        subst h
        refine ⟨fun _ => ⟨by simp, ?_⟩, fun hnlt => absurd hlt hnlt⟩
        intro r hr
        cases hr
      | ok r =>
        by_cases hq : cleanTerms query = []
        · simp only [searchDocuments, if_pos hlt, if_pos hq] at h
          injection h with h
          subst h
          refine ⟨fun _ => ⟨count_refresh_shape _ _ [] (by intro hc; cases hc), ?_⟩,
            fun hnlt => absurd hlt hnlt⟩
          intro r2 hr2
          injection hr2 with hr2
          subst hr2
          refine ⟨[], rfl, ?_, ?_, by intro hc; cases hc⟩
          · intro t ht
            cases ht
          · intro i t ht
            cases ht
        · simp only [searchDocuments, if_pos hlt, if_neg hq] at h
          rcases runListing_shape h with ⟨tail, hevs, htail⟩
          refine ⟨fun _ => ⟨?_, ?_⟩, fun hnlt => absurd hlt hnlt⟩
          · rw [hevs]
            exact count_refresh_shape _ _ _ (by
              intro hmem
              rcases List.mem_cons.mp hmem with heq | hmem2
              · cases heq
              · exact fetch_tail_no_refresh htail hmem2)
          · intro r2 hr2
            injection hr2 with hr2
            subst hr2
            refine ⟨Event.listingCall r.access_token :: tail, hevs,
              (rest_membership_props _ _ htail).1, (rest_membership_props _ _ htail).2, ?_⟩
            intro hmem
            rcases List.mem_cons.mp hmem with heq | hmem2
            · cases heq
            · exact fetch_tail_no_refresh htail hmem2
    · simp only [searchDocuments, if_neg hlt] at h
      by_cases hq : cleanTerms query = []
      · rw [if_pos hq] at h
        injection h with h
        subst h
        exact ⟨fun hlt2 => absurd hlt2 hlt, fun _ => rfl⟩
      · rw [if_neg hq] at h
        rcases runListing_shape h with ⟨tail, hevs, htail⟩
        refine ⟨fun hlt2 => absurd hlt2 hlt, fun _ => ?_⟩
        rw [hevs, List.nil_append]
        exact count_refresh_zero_listing _ _ htail
  · by_cases hlt : cred.expiresAt < now
    · cases refreshOutcome with
      | error m =>
        simp only [getAllDocuments, if_pos hlt] at h
        injection h with h
        subst h
        refine ⟨fun _ => ⟨by simp, ?_⟩, fun hnlt => absurd hlt hnlt⟩
        intro r hr
        cases hr
      | ok r =>
        simp only [getAllDocuments, if_pos hlt] at h
        rcases runListing_shape h with ⟨tail, hevs, htail⟩
        refine ⟨fun _ => ⟨?_, ?_⟩, fun hnlt => absurd hlt hnlt⟩
        · rw [hevs]
          exact count_refresh_shape _ _ _ (by
            intro hmem
            rcases List.mem_cons.mp hmem with heq | hmem2
            · cases heq
            · exact fetch_tail_no_refresh htail hmem2)
        · intro r2 hr2
          injection hr2 with hr2
          subst hr2
          refine ⟨Event.listingCall r.access_token :: tail, hevs,
            (rest_membership_props _ _ htail).1, (rest_membership_props _ _ htail).2, ?_⟩
          intro hmem
          rcases List.mem_cons.mp hmem with heq | hmem2
          · cases heq
          · exact fetch_tail_no_refresh htail hmem2
    · simp only [getAllDocuments, if_neg hlt] at h
      rcases runListing_shape h with ⟨tail, hevs, htail⟩
      refine ⟨fun hlt2 => absurd hlt2 hlt, fun _ => ?_⟩
      rw [hevs, List.nil_append]
      exact count_refresh_zero_listing _ _ htail

/-- C2 witness: an expired credential makes searchDocuments refresh once,
persist the new token and expiry, then list with the refreshed token. -/
theorem c2_refresh_trigger_witness :
    (⟨AggResult.ok [], [Event.refreshCall, Event.persistToken "new" 60005,
        Event.listingCall "new"]⟩ : AggRun).events.count Event.refreshCall = 1 := by
  have h := c2_refresh_trigger ⟨"t1", "old", "rt", 0⟩ (Except.ok ⟨"new", 60⟩) (some [])
    (fun _ _ => ⟨Except.error ⟨none, ""⟩, Except.error ⟨none, ""⟩⟩) 1 "hi" [] 5
    ⟨AggResult.ok [], [Event.refreshCall, Event.persistToken "new" 60005,
      Event.listingCall "new"]⟩
    (Or.inl (by decide))
  exact (h.1 (by decide)).1

example :
    fetchDocumentContent (fun _ => ⟨Except.error ⟨some 500, "boom"⟩, Except.error ⟨some 500, "boom"⟩⟩)
      0 1 "f" "tok" [] 0 =
    some ⟨FetchResult.ok "[Error: boom]", [], 1, 0⟩ := by decide

example :
    fetchDocumentContent (fun _ => ⟨Except.error ⟨some 429, "rate"⟩, Except.error ⟨some 429, "rate"⟩⟩)
      0 3 "f" "tok" [] 0 = none := by decide

example :
    fetchDocumentContent (fun _ => ⟨Except.ok ⟨"text/plain", "a.txt"⟩, Except.ok "hello"⟩)
      0 1 "f" "tok" [] 7 =
    some ⟨FetchResult.ok "hello", [("f", ⟨"hello", 7⟩)], 2, 0⟩ := by decide

example :
    fetchDocumentContent (fun _ => ⟨Except.ok ⟨"image/png", "p.png"⟩, Except.ok "x"⟩)
      0 1 "f" "tok" [] 7 =
    some ⟨FetchResult.ok "[Unsupported file type: image/png]", [], 1, 0⟩ := by decide

example :
    fetchDocumentContent (fun _ => ⟨Except.ok ⟨"text/plain", "a.txt"⟩, Except.ok "hello"⟩)
      0 1 "f" "  " [] 7 =
    some ⟨FetchResult.thrown "Invalid access token", [], 0, 0⟩ := by decide

example :
    fetchDocumentContent (fun _ => ⟨Except.ok ⟨"text/plain", "a.txt"⟩, Except.ok "other"⟩)
      0 1 "f" "" [("f", ⟨"cached", 0⟩)] 10 =
    some ⟨FetchResult.ok "cached", [("f", ⟨"cached", 0⟩)], 0, 0⟩ := by decide

end UniversalSearch
